import Mathlib

/-!
Verification of the Booking & Availability Engine of the ARQ-Software
campus space-reservation system (`src/services/booking_service.py`,
`src/services/incident_service.py`, `src/services/availability_service.py`).

The relational store is embedded shallowly: each SQL table becomes a Lean
list of rows, timestamps become integers (minutes; only their ordering and
arithmetic matter to the engine), and each service handler becomes a pure
function from a database value and the request fields to a result together
with the updated database.  Auto-increment row ids are modelled by an
explicit `nextId` counter (the Python code re-selects the id it just
inserted; with an auto-increment key that is the freshly inserted row).
Columns that no handler reads (`fecha_solicitud`, `descripcion_incidencia`,
`capacidad`, `tipo` of a space, incident report metadata) are omitted, and
ISO-8601 date parsing is outside the model: handlers receive the already
parsed instants.
-/

namespace ARQ

/-- Row of the `usuarios` table (only the columns the engine reads). -/
structure Usuario where
  id : String
  activo : Bool
deriving DecidableEq

/-- Row of the `espacios` table (only the columns the engine reads). -/
structure Espacio where
  id : String
  nombre : String
  activo : Bool
deriving DecidableEq

/-- Row of the `reservas` table: one reservation interval.  `estado` ranges
over `"pendiente" | "aprobada" | "rechazada" | "cancelada" | "bloqueo"` and
`tipo` over `"normal" | "bloqueo"`, exactly the strings the Python services
write.  `usuario` is `none` for block rows (the block INSERT omits
`id_usuario`). -/
structure Reserva where
  id : Nat
  usuario : Option String
  espacio : String
  inicio : Int
  fin : Int
  estado : String
  motivo : String
  tipo : String
deriving DecidableEq

/-- Row of the `incidencias` table (only the columns the engine reads). -/
structure Incidencia where
  id : Nat
  espacio : String
  estado : String
  solucion : String
deriving DecidableEq

/-- The shared relational database of the system. -/
structure DB where
  usuarios : List Usuario
  espacios : List Espacio
  reservas : List Reserva
  incidencias : List Incidencia
  nextId : Nat
deriving DecidableEq

/-- `SELECT id_usuario FROM usuarios WHERE id_usuario = u AND activo = 1`
has a row. -/
def usuarioActivo (db : DB) (u : String) : Bool :=
  db.usuarios.any fun x => x.id == u && x.activo

/-- `SELECT id_espacio FROM espacios WHERE id_espacio = s AND activo = 1`
has a row. -/
def espacioActivo (db : DB) (s : String) : Bool :=
  db.espacios.any fun x => x.id == s && x.activo

/-- The conflict condition of `handle_create_booking` (and of the UPDATE in
`handle_apply_block`): the row is for the space, is `pendiente` or
`aprobada`, and `fecha_inicio < :fecha_fin AND fecha_fin > :fecha_inicio`
(half-open overlap with the candidate `[inicio, fin)`). -/
def conflictsWith (space : String) (inicio fin : Int) (r : Reserva) : Bool :=
  r.espacio == space && (r.estado == "pendiente" || r.estado == "aprobada")
    && decide (r.inicio < fin) && decide (r.fin > inicio)

/-- The row inserted by `handle_create_booking`. -/
def nuevaReserva (id : Nat) (user space : String) (inicio fin : Int) (motivo : String) : Reserva :=
  ⟨id, some user, space, inicio, fin, "pendiente", motivo, "normal"⟩

/-- `BookingService.handle_create_booking` from
`src/services/booking_service.py`: field-presence check, `end > start`
check, active-user and active-space lookups, conflict scan over
`pendiente`/`aprobada` rows of the space, then INSERT of a `pendiente`
row.  On any error the database is unchanged. -/
def handle_create_booking (db : DB) (user space : String) (inicio fin : Int) (motivo : String) :
    Except String Nat × DB :=
  if user == "" || space == "" then
    (.error "Usuario, espacio, inicio y fin son requeridos", db)
  else if fin ≤ inicio then
    (.error "La fecha de fin debe ser posterior a la de inicio", db)
  else if !(usuarioActivo db user) then
    (.error "Usuario no encontrado", db)
  else if !(espacioActivo db space) then
    (.error "Espacio no encontrado", db)
  else if db.reservas.any (conflictsWith space inicio fin) then
    (.error "El espacio no está disponible en ese horario", db)
  else
    (.ok db.nextId,
      { db with
          reservas := db.reservas ++ [nuevaReserva db.nextId user space inicio fin motivo],
          nextId := db.nextId + 1 })

/-- The row transformation of `UPDATE reservas SET estado = e WHERE
id_reserva = rid`. -/
def setEstado (rid : Nat) (estado : String) (r : Reserva) : Reserva :=
  if r.id == rid then { r with estado := estado } else r

/-- `BookingService.handle_approve_booking`: requires `reserva`, `estado`
and `admin` present, `estado` in `{aprobada, rechazada}`, and the row to
exist; then it updates the state unconditionally -- the current state is
never inspected. -/
def handle_approve_booking (db : DB) (reserva : Option Nat) (estado admin : String) :
    Except String Unit × DB :=
  match reserva with
  | none => (.error "ID de reserva, estado y admin son requeridos", db)
  | some rid =>
    if estado == "" || admin == "" then
      (.error "ID de reserva, estado y admin son requeridos", db)
    else if !(estado == "aprobada" || estado == "rechazada") then
      (.error "Estado inválido", db)
    else if !(db.reservas.any fun r => r.id == rid) then
      (.error "Reserva no encontrada", db)
    else
      (.ok (), { db with reservas := db.reservas.map (setEstado rid estado) })

/-- `BookingService.handle_cancel_booking`: requires `reserva` present and
a row with that id owned by `user` (`id_reserva = :reserva_id AND
id_usuario = :user_id`); then it sets the state to `cancelada`
unconditionally -- the current state is never inspected. -/
def handle_cancel_booking (db : DB) (reserva : Option Nat) (user : String) :
    Except String Unit × DB :=
  match reserva with
  | none => (.error "ID de reserva es requerido", db)
  | some rid =>
    if !(db.reservas.any fun r => r.id == rid && r.usuario == some user) then
      (.error "Reserva no encontrada o no autorizada", db)
    else
      (.ok (), { db with reservas := db.reservas.map (setEstado rid "cancelada") })

/-- The block row inserted by `handle_apply_block` (`id_usuario` omitted,
`estado = 'bloqueo'`, `tipo_reserva = 'bloqueo'`). -/
def reservaBloqueo (id : Nat) (space : String) (inicio fin : Int) : Reserva :=
  ⟨id, none, space, inicio, fin, "bloqueo", "Bloqueo por incidencia", "bloqueo"⟩

/-- `IncidentService.handle_apply_block`: requires the fields present and
`end > start`, looks up the incident to get its space, cancels every
`pendiente`/`aprobada` row of that space overlapping `[inicio, fin)`,
reports how many rows that UPDATE touched, and inserts the block row. -/
def handle_apply_block (db : DB) (incidencia : Option Nat) (inicio fin : Int) :
    Except String Nat × DB :=
  match incidencia with
  | none => (.error "ID de incidencia, inicio y fin son requeridos", db)
  | some iid =>
    if fin ≤ inicio then
      (.error "La fecha de fin debe ser posterior a la de inicio", db)
    else
      match db.incidencias.find? (fun i => i.id == iid) with
      | none => (.error "Incidencia no encontrada", db)
      | some inc =>
        (.ok (db.reservas.countP (conflictsWith inc.espacio inicio fin)),
          { db with
              reservas := db.reservas.map
                  (fun r => if conflictsWith inc.espacio inicio fin r then
                      { r with estado := "cancelada" } else r)
                ++ [reservaBloqueo db.nextId inc.espacio inicio fin],
              nextId := db.nextId + 1 })

/-- Condition of the DELETE in `handle_resolve_incident`: a block row of
the space (`tipo_reserva = 'bloqueo' AND estado = 'bloqueo'`). -/
def esBloqueoActivo (space : String) (r : Reserva) : Bool :=
  r.espacio == space && r.tipo == "bloqueo" && r.estado == "bloqueo"

/-- `IncidentService.handle_resolve_incident`: requires `incidencia`
present and the incident row to exist; marks the incident `resuelta`,
hard-DELETEs every block row of its space, and returns
`{"resuelta": True, "espacio_liberado": True}` -- both literals are
hardcoded, whether or not any block row was deleted. -/
def handle_resolve_incident (db : DB) (incidencia : Option Nat) (solucion : String) :
    Except String (Bool × Bool) × DB :=
  match incidencia with
  | none => (.error "ID de incidencia es requerido", db)
  | some iid =>
    match db.incidencias.find? (fun i => i.id == iid) with
    | none => (.error "Incidencia no encontrada", db)
    | some inc =>
      (.ok (true, true),
        { db with
            incidencias := db.incidencias.map
              (fun i => if i.id == iid then { i with estado := "resuelta", solucion := solucion }
                else i),
            reservas := db.reservas.filter (fun r => !(esBloqueoActivo inc.espacio r)) })

/-- One client request mutating the interval store: the four operations of
claim C1 (create / decide / cancel / applyBlock). -/
inductive Op where
  | crear (user space : String) (inicio fin : Int) (motivo : String)
  | decidir (reserva : Option Nat) (estado admin : String)
  | cancelar (reserva : Option Nat) (user : String)
  | bloquear (incidencia : Option Nat) (inicio fin : Int)
deriving DecidableEq

/-- Apply one request to the database (the response is discarded). -/
def applyOp (db : DB) (op : Op) : DB :=
  match op with
  | .crear user space inicio fin motivo => (handle_create_booking db user space inicio fin motivo).2
  | .decidir reserva estado admin => (handle_approve_booking db reserva estado admin).2
  | .cancelar reserva user => (handle_cancel_booking db reserva user).2
  | .bloquear incidencia inicio fin => (handle_apply_block db incidencia inicio fin).2

/-- Run a sequence of requests. -/
def runOps (db : DB) (ops : List Op) : DB :=
  ops.foldl applyOp db

/-- Membership in the conflict set actually consulted by the code:
`estado IN ('pendiente', 'aprobada')`. -/
def enConjuntoActivo (r : Reserva) : Bool :=
  r.estado == "pendiente" || r.estado == "aprobada"

/-- Membership in the conflict set named by the specification:
`{pending, approved, block}`. -/
def enConjuntoSpec (r : Reserva) : Bool :=
  r.estado == "pendiente" || r.estado == "aprobada" || r.estado == "bloqueo"

/-- Half-open overlap of two stored rows:
`a.start < b.end AND b.start < a.end`. -/
def seSolapan (a b : Reserva) : Bool :=
  decide (a.inicio < b.fin) && decide (b.inicio < a.fin)

/-- A pair of rows is acceptable when they are not two same-space rows of
the (code) conflict set that overlap. -/
def parOk (a b : Reserva) : Bool :=
  !(a.espacio == b.espacio && enConjuntoActivo a && enConjuntoActivo b && seSolapan a b)

/-- A pair of rows is acceptable for the specification set
`{pending, approved, block}`. -/
def parOkSpec (a b : Reserva) : Bool :=
  !(a.espacio == b.espacio && enConjuntoSpec a && enConjuntoSpec b && seSolapan a b)

/-- Every unordered pair of distinct rows satisfies `p`. -/
def pairwiseOk (p : Reserva → Reserva → Bool) : List Reserva → Bool
  | [] => true
  | r :: rs => rs.all (p r) && pairwiseOk p rs

/-- No-double-booking invariant as the code maintains it: pairwise
non-overlap of same-space `pendiente`/`aprobada` rows. -/
def bookingInvariant (db : DB) : Bool :=
  pairwiseOk parOk db.reservas

/-- No-double-booking invariant as the specification states it: pairwise
non-overlap of same-space `pendiente`/`aprobada`/`bloqueo` rows. -/
def bookingInvariantSpec (db : DB) : Bool :=
  pairwiseOk parOkSpec db.reservas

/-- A `decidir` request is lifecycle-safe in a given database when every
row it would update is currently `pendiente`; all other requests are
always safe. -/
def safeOp (db : DB) (op : Op) : Bool :=
  match op with
  | .decidir reserva _ _ =>
    db.reservas.all fun r => !(some r.id == reserva) || r.estado == "pendiente"
  | _ => true

/-- Every request of the sequence is lifecycle-safe in the database it
executes against. -/
def safeOps (db : DB) : List Op → Bool
  | [] => true
  | op :: rest => safeOp db op && safeOps (applyOp db op) rest


/-! ### Invariant preservation machinery (claim C1) -/

theorem pairwiseOk_iff (p : Reserva → Reserva → Bool) (l : List Reserva) :
    pairwiseOk p l = true ↔ l.Pairwise (fun a b => p a b = true) := by
  induction l with
  | nil => simp [pairwiseOk]
  | cons r rs ih =>
    simp [pairwiseOk, List.all_eq_true, ih, List.pairwise_cons, Bool.and_eq_true]

theorem parOk_iff (a b : Reserva) :
    parOk a b = true ↔
      (a.espacio = b.espacio → enConjuntoActivo a = true → enConjuntoActivo b = true →
        seSolapan a b = false) := by
  simp only [parOk, Bool.not_eq_true']
  cases h1 : (a.espacio == b.espacio) <;> cases h2 : enConjuntoActivo a <;>
    cases h3 : enConjuntoActivo b <;> cases h4 : seSolapan a b <;>
    simp_all [beq_iff_eq]

theorem seSolapan_false_iff (a b : Reserva) :
    seSolapan a b = false ↔ (a.inicio < b.fin → a.fin ≤ b.inicio) := by
  simp [seSolapan]

theorem conflictsWith_false_iff (space : String) (inicio fin : Int) (r : Reserva) :
    conflictsWith space inicio fin r = false ↔
      (r.espacio = space → enConjuntoActivo r = true → r.inicio < fin → r.fin ≤ inicio) := by
  unfold conflictsWith
  cases h1 : (r.espacio == space) <;> cases h2 : enConjuntoActivo r <;>
    simp_all [enConjuntoActivo, beq_iff_eq]
theorem parOk_of_right_inactive (a b : Reserva) (h : enConjuntoActivo b = false) :
    parOk a b = true := by
  rw [parOk_iff]
  intro _ _ hb
  rw [h] at hb
  exact absurd hb (by simp)

theorem pairwiseOk_map (l : List Reserva) (f : Reserva → Reserva)
    (hgeo : ∀ r, (f r).espacio = r.espacio ∧ (f r).inicio = r.inicio ∧ (f r).fin = r.fin)
    (hset : ∀ r ∈ l, enConjuntoActivo (f r) = true → enConjuntoActivo r = true)
    (h : pairwiseOk parOk l = true) : pairwiseOk parOk (l.map f) = true := by
  rw [pairwiseOk_iff] at h ⊢
  rw [List.pairwise_map]
  refine h.imp_of_mem ?_
  intro a b ha hb hab
  rw [parOk_iff] at hab ⊢
  intro hesp hA hB
  have hsol : seSolapan (f a) (f b) = seSolapan a b := by
    unfold seSolapan
    rw [(hgeo a).2.1, (hgeo a).2.2, (hgeo b).2.1, (hgeo b).2.2]
  rw [hsol]
  refine hab ?_ (hset a ha hA) (hset b hb hB)
  rw [← (hgeo a).1, ← (hgeo b).1, hesp]

theorem pairwiseOk_append_single (l : List Reserva) (x : Reserva)
    (h : pairwiseOk parOk l = true)
    (hx : ∀ r ∈ l, parOk r x = true) : pairwiseOk parOk (l ++ [x]) = true := by
  rw [pairwiseOk_iff] at h ⊢
  rw [List.pairwise_append]
  refine ⟨h, List.pairwise_singleton _ _, ?_⟩
  intro a ha b hb
  rw [List.mem_singleton] at hb
  subst hb
  exact hx a ha

theorem setEstado_geo (rid : Nat) (estado : String) (r : Reserva) :
    (setEstado rid estado r).espacio = r.espacio ∧
      (setEstado rid estado r).inicio = r.inicio ∧ (setEstado rid estado r).fin = r.fin := by
  unfold setEstado
  split <;> simp

theorem bookingInvariant_create (db : DB) (user space : String) (inicio fin : Int)
    (motivo : String) (h : bookingInvariant db = true) :
    bookingInvariant (handle_create_booking db user space inicio fin motivo).2 = true := by
  unfold bookingInvariant at h ⊢
  unfold handle_create_booking
  split
  · exact h
  split
  · exact h
  split
  · exact h
  split
  · exact h
  split
  · exact h
  next hconf =>
    simp only
    refine pairwiseOk_append_single _ _ h ?_
    intro r hr
    rw [Bool.not_eq_true, List.any_eq_false] at hconf
    have hc0 := hconf r hr
    rw [Bool.not_eq_true] at hc0
    have hc := (conflictsWith_false_iff space inicio fin r).mp hc0
    rw [parOk_iff]
    intro hesp hA _
    rw [seSolapan_false_iff]
    intro hlt
    have : r.fin ≤ inicio := hc (by simpa [nuevaReserva] using hesp) hA (by simpa [nuevaReserva] using hlt)
    simpa [nuevaReserva] using this
theorem bookingInvariant_decidir (db : DB) (reserva : Option Nat) (estado admin : String)
    (hsafe : safeOp db (.decidir reserva estado admin) = true)
    (h : bookingInvariant db = true) :
    bookingInvariant (handle_approve_booking db reserva estado admin).2 = true := by
  cases reserva with
  | none => simpa [handle_approve_booking, bookingInvariant] using h
  | some rid =>
    unfold bookingInvariant at h ⊢
    simp only [handle_approve_booking]
    repeat' split
    any_goals exact h
    rename_i hempty hval hfound
    refine pairwiseOk_map _ _ (setEstado_geo rid estado) ?_ h
    intro r hr hact
    have hval2 : estado = "aprobada" ∨ estado = "rechazada" := by
      by_cases hc : estado = "aprobada"
      · exact Or.inl hc
      · have himp : ¬estado = "aprobada" → estado = "rechazada" := by simpa using hval
        exact Or.inr (himp hc)
    unfold safeOp at hsafe
    rw [List.all_eq_true] at hsafe
    have hs := hsafe r hr
    unfold setEstado at hact
    split at hact
    next heq =>
      rcases hval2 with hap | hre
      · subst hap
        have hid : r.id = rid := beq_iff_eq.mp heq
        rw [hid] at hs
        simp only [beq_self_eq_true, Bool.not_true, Bool.false_or] at hs
        simp [enConjuntoActivo, beq_iff_eq.mp hs]
      · subst hre
        simp [enConjuntoActivo] at hact
    next => exact hact

theorem bookingInvariant_cancelar (db : DB) (reserva : Option Nat) (user : String)
    (h : bookingInvariant db = true) :
    bookingInvariant (handle_cancel_booking db reserva user).2 = true := by
  cases reserva with
  | none => simpa [handle_cancel_booking, bookingInvariant] using h
  | some rid =>
    unfold bookingInvariant at h ⊢
    simp only [handle_cancel_booking]
    repeat' split
    any_goals exact h
    refine pairwiseOk_map _ _ (setEstado_geo rid "cancelada") ?_ h
    intro r _ hact
    unfold setEstado at hact
    split at hact
    · simp [enConjuntoActivo] at hact
    · exact hact

theorem bookingInvariant_bloquear (db : DB) (incidencia : Option Nat) (inicio fin : Int)
    (h : bookingInvariant db = true) :
    bookingInvariant (handle_apply_block db incidencia inicio fin).2 = true := by
  cases incidencia with
  | none => simpa [handle_apply_block, bookingInvariant] using h
  | some iid =>
    unfold bookingInvariant at h ⊢
    simp only [handle_apply_block]
    repeat' split
    any_goals exact h
    refine pairwiseOk_append_single _ _ ?_ ?_
    · refine pairwiseOk_map _ _ ?_ ?_ h
      · intro r
        split <;> simp
      · intro r _ hact
        split at hact
        · simp [enConjuntoActivo] at hact
        · exact hact
    · intro r _
      exact parOk_of_right_inactive _ _ (by simp [enConjuntoActivo, reservaBloqueo])

theorem bookingInvariant_applyOp (db : DB) (op : Op)
    (hsafe : safeOp db op = true) (h : bookingInvariant db = true) :
    bookingInvariant (applyOp db op) = true := by
  cases op with
  | crear user space inicio fin motivo => exact bookingInvariant_create db user space inicio fin motivo h
  | decidir reserva estado admin => exact bookingInvariant_decidir db reserva estado admin hsafe h
  | cancelar reserva user => exact bookingInvariant_cancelar db reserva user h
  | bloquear incidencia inicio fin => exact bookingInvariant_bloquear db incidencia inicio fin h

theorem bookingInvariant_runOps (ops : List Op) (db : DB)
    (hsafe : safeOps db ops = true) (h : bookingInvariant db = true) :
    bookingInvariant (runOps db ops) = true := by
  induction ops generalizing db with
  | nil => exact h
  | cons op rest ih =>
    unfold safeOps at hsafe
    rw [Bool.and_eq_true] at hsafe
    exact ih (applyOp db op) hsafe.2 (bookingInvariant_applyOp db op hsafe.1 h)
/-! ### Concrete databases used by witnesses and counterexamples -/

/-- Directories with active user `"2"` (and `"3"`), active space `"1"`, an
open incident `1` on space `"1"`, and an empty interval store. -/
def dbBase : DB :=
  ⟨[⟨"2", true⟩, ⟨"3", true⟩], [⟨"1", "Sala A", true⟩], [], [⟨1, "1", "abierta", ""⟩], 1⟩

/-- `dbBase` after a block `[600, 720)` has been stored for space `"1"`. -/
def dbBloqueado : DB :=
  ⟨[⟨"2", true⟩, ⟨"3", true⟩], [⟨"1", "Sala A", true⟩], [reservaBloqueo 1 "1" 600 720],
    [⟨1, "1", "abierta", ""⟩], 2⟩

/-- `dbBase` with one already `aprobada` booking `[840, 960)` owned by `"2"`. -/
def dbAprobada : DB :=
  ⟨[⟨"2", true⟩, ⟨"3", true⟩], [⟨"1", "Sala A", true⟩],
    [⟨1, some "2", "1", 840, 960, "aprobada", "x", "normal"⟩], [⟨1, "1", "abierta", ""⟩], 2⟩

/-- `dbBase` with one already `cancelada` booking `[840, 960)` owned by `"2"`. -/
def dbCancelada : DB :=
  ⟨[⟨"2", true⟩, ⟨"3", true⟩], [⟨"1", "Sala A", true⟩],
    [⟨1, some "2", "1", 840, 960, "cancelada", "x", "normal"⟩], [⟨1, "1", "abierta", ""⟩], 2⟩

/-! ### Claim C1 -/

/-- C1 counterexample: starting from an empty interval store, applying the
block of incident `1` over `[600, 720)` on space `"1"` and then creating a
booking over the same range leaves a `bloqueo` row and a `pendiente` row of
the same space that overlap, so the stated invariant over states
`{pendiente, aprobada, bloqueo}` is false: the conflict scan of
`handle_create_booking` only looks at `pendiente` and `aprobada` rows. -/
theorem claim_C1_counterexample :
    dbBase.reservas = [] ∧
    bookingInvariantSpec
      (runOps dbBase [.bloquear (some 1) 600 720, .crear "2" "1" 600 720 "x"]) = false :=
  ⟨rfl, rfl⟩

/-- C1 amended: starting from an empty interval store, after any sequence
of create / decide / cancel / applyBlock requests in which every decide
targets only rows that are currently `pendiente`, the rows with state in
`{pendiente, aprobada}` of any one space are pairwise non-overlapping
(half-open semantics).  `bloqueo` rows are not covered (see the
counterexample), and the restriction on decide is needed because
`handle_approve_booking` never checks the current state, so deciding a
`cancelada`/`rechazada` row can resurrect an overlap. -/
theorem claim_C1_amended (db : DB) (ops : List Op) (h0 : db.reservas = [])
    (hs : safeOps db ops = true) :
    bookingInvariant (runOps db ops) = true := by
  refine bookingInvariant_runOps ops db hs ?_
  unfold bookingInvariant
  rw [h0]
  rfl

/-- C1 witness: a concrete safe trace exercising all four operations keeps
the invariant. -/
theorem claim_C1_witness :
    dbBase.reservas = [] ∧
    safeOps dbBase
      [.crear "2" "1" 840 960 "a", .decidir (some 1) "aprobada" "9",
        .crear "2" "1" 960 1080 "b", .bloquear (some 1) 600 720,
        .cancelar (some 2) "2"] = true ∧
    bookingInvariant (runOps dbBase
      [.crear "2" "1" 840 960 "a", .decidir (some 1) "aprobada" "9",
        .crear "2" "1" 960 1080 "b", .bloquear (some 1) 600 720,
        .cancelar (some 2) "2"]) = true :=
  ⟨rfl, rfl,
    claim_C1_amended dbBase
      [.crear "2" "1" 840 960 "a", .decidir (some 1) "aprobada" "9",
        .crear "2" "1" 960 1080 "b", .bloquear (some 1) 600 720,
        .cancelar (some 2) "2"] rfl rfl⟩

/-! ### Claim C2 -/

/-- C2 counterexample: with only a `bloqueo` row `[600, 720)` stored for
space `"1"`, creating `[600, 720)` on that space succeeds and writes a row,
although a stored interval with state in `{pendiente, aprobada, bloqueo}`
overlaps the candidate: `create` does not fail with `SlotUnavailable` on
block overlap as the claim requires. -/
theorem claim_C2_counterexample :
    (∃ r ∈ dbBloqueado.reservas,
      r.espacio = "1" ∧ r.estado = "bloqueo" ∧ r.inicio < 720 ∧ 600 < r.fin) ∧
    (handle_create_booking dbBloqueado "2" "1" 600 720 "x").1 = .ok 2 ∧
    (handle_create_booking dbBloqueado "2" "1" 600 720 "x").2.reservas.length = 2 := by
  refine ⟨⟨reservaBloqueo 1 "1" 600 720, ?_, ?_⟩, rfl, rfl⟩
  · simp [dbBloqueado]
  · refine ⟨rfl, rfl, ?_, ?_⟩ <;> decide

/-- C2 amended: given non-empty user and space fields, `end > start`, and
active user and space, `create` fails with the `SlotUnavailable` message
and leaves the database unchanged if and only if some stored interval for
the space with state in `{pendiente, aprobada}` (not `bloqueo`) overlaps
`[start, end)` half-open; otherwise it appends a `pendiente` row and
returns the fresh identifier. -/
theorem claim_C2_amended (db : DB) (user space : String) (inicio fin : Int) (motivo : String)
    (hu : (user == "") = false) (hs : (space == "") = false) (hr : ¬fin ≤ inicio)
    (hua : usuarioActivo db user = true) (hsa : espacioActivo db space = true) :
    (db.reservas.any (conflictsWith space inicio fin) = true →
      handle_create_booking db user space inicio fin motivo =
        (.error "El espacio no está disponible en ese horario", db)) ∧
    (db.reservas.any (conflictsWith space inicio fin) = false →
      handle_create_booking db user space inicio fin motivo =
        (.ok db.nextId,
          { db with
              reservas := db.reservas ++ [nuevaReserva db.nextId user space inicio fin motivo],
              nextId := db.nextId + 1 })) := by
  constructor <;> intro hc <;> simp [handle_create_booking, hu, hs, hr, hua, hsa, hc]

/-- C2 witness: the amended theorem applied to the base database. -/
theorem claim_C2_witness :
    dbBase.reservas.any (conflictsWith "1" 840 960) = false ∧
    handle_create_booking dbBase "2" "1" 840 960 "x" =
      (.ok 1,
        { dbBase with
            reservas := dbBase.reservas ++ [nuevaReserva 1 "2" "1" 840 960 "x"],
            nextId := 2 }) :=
  ⟨rfl,
    (claim_C2_amended dbBase "2" "1" 840 960 "x" rfl rfl (by decide) rfl rfl).2 rfl⟩

/-! ### Claim C3 -/

/-- C3 counterexample: the database holds interval `1` in state `aprobada`
(not `pendiente`), yet deciding it again returns success, not
`InvalidState`: `handle_approve_booking` never inspects the current
state. -/
theorem claim_C3_counterexample :
    dbAprobada.reservas.map (fun r => (r.id, r.estado)) = [(1, "aprobada")] ∧
    (handle_approve_booking dbAprobada (some 1) "aprobada" "9").1 = .ok () :=
  ⟨rfl, rfl⟩

/-- C3 amended: with outcome in `{aprobada, rechazada}` and a non-empty
admin field, decide fails with `Reserva no encontrada` (NotFound) and
leaves the database unchanged when no row has the id; when a row exists,
decide succeeds and overwrites its state with the outcome whatever the
current state is -- there is no `InvalidState` guard, so deciding an
already-`aprobada` interval also succeeds. -/
theorem claim_C3_amended (db : DB) (rid : Nat) (estado admin : String)
    (hv : estado = "aprobada" ∨ estado = "rechazada") (ha : (admin == "") = false) :
    ((db.reservas.any fun r => r.id == rid) = false →
      handle_approve_booking db (some rid) estado admin = (.error "Reserva no encontrada", db)) ∧
    ((db.reservas.any fun r => r.id == rid) = true →
      handle_approve_booking db (some rid) estado admin =
        (.ok (), { db with reservas := db.reservas.map (setEstado rid estado) })) := by
  have he : (estado == "") = false := by rcases hv with h | h <;> simp [h]
  have hval : (!(estado == "aprobada" || estado == "rechazada")) = false := by
    rcases hv with h | h <;> simp [h]
  constructor <;> intro hc <;> simp [handle_approve_booking, he, ha, hval, hc]

/-- C3 witness: the amended theorem applied to the database holding an
`aprobada` interval. -/
theorem claim_C3_witness :
    (dbAprobada.reservas.any fun r => r.id == 1) = true ∧
    handle_approve_booking dbAprobada (some 1) "rechazada" "9" =
      (.ok (), { dbAprobada with reservas := dbAprobada.reservas.map (setEstado 1 "rechazada") }) :=
  ⟨rfl, (claim_C3_amended dbAprobada 1 "rechazada" "9" (Or.inr rfl) rfl).2 rfl⟩

/-! ### Claim C4 -/

/-- C4 counterexample: interval `1` is already `cancelada`, yet cancelling
it again by its owner returns success, not `InvalidState`:
`handle_cancel_booking` never inspects the current state. -/
theorem claim_C4_counterexample :
    dbCancelada.reservas.map (fun r => (r.id, r.estado)) = [(1, "cancelada")] ∧
    (handle_cancel_booking dbCancelada (some 1) "2").1 = .ok () :=
  ⟨rfl, rfl⟩

/-- C4 amended: cancel fails with the combined message
`Reserva no encontrada o no autorizada` and leaves the database unchanged
when no row has the id with the given owner; when such a row exists it sets
the state to `cancelada` from any prior state -- cancelling an already
`cancelada` or `rechazada` interval is silently accepted, there is no
`InvalidState` guard. -/
theorem claim_C4_amended (db : DB) (rid : Nat) (user : String) :
    ((db.reservas.any fun r => r.id == rid && r.usuario == some user) = false →
      handle_cancel_booking db (some rid) user =
        (.error "Reserva no encontrada o no autorizada", db)) ∧
    ((db.reservas.any fun r => r.id == rid && r.usuario == some user) = true →
      handle_cancel_booking db (some rid) user =
        (.ok (), { db with reservas := db.reservas.map (setEstado rid "cancelada") })) := by
  constructor <;> intro hc <;> simp [handle_cancel_booking, hc]

/-- C4 witness: the amended theorem applied to the database holding a
`cancelada` interval owned by `"2"`. -/
theorem claim_C4_witness :
    (dbCancelada.reservas.any fun r => r.id == 1 && r.usuario == some "2") = true ∧
    handle_cancel_booking dbCancelada (some 1) "2" =
      (.ok (), { dbCancelada with reservas := dbCancelada.reservas.map (setEstado 1 "cancelada") }) :=
  ⟨rfl, (claim_C4_amended dbCancelada 1 "2").2 rfl⟩

/-! ### Claim C5 -/

/-- Database after `create(space 1, [840, 960))` (14:00 = minute 840,
16:00 = minute 960). -/
def dbC5a : DB := (handle_create_booking dbBase "2" "1" 840 960 "x").2

/-- `dbC5a` after `create(space 1, [960, 1080))` (16:00 to 18:00). -/
def dbC5b : DB := (handle_create_booking dbC5a "2" "1" 960 1080 "y").2

/-- C5: half-open overlap at create.  With minutes of the day as instants
(14:00 = 840, 15:00 = 900, 16:00 = 960, 17:00 = 1020, 18:00 = 1080):
creating `[14:00, 16:00)` on space 1 succeeds, then creating
`[16:00, 18:00)` also succeeds (boundary touch, `a.end == b.start`, is not
a conflict), while creating `[15:00, 17:00)` fails with the
`SlotUnavailable` message. -/
theorem claim_C5 :
    (handle_create_booking dbBase "2" "1" 840 960 "x").1 = .ok 1 ∧
    (handle_create_booking dbC5a "2" "1" 960 1080 "y").1 = .ok 2 ∧
    (handle_create_booking dbC5b "2" "1" 900 1020 "z").1 =
      .error "El espacio no está disponible en ese horario" :=
  ⟨rfl, rfl, rfl⟩

/-! ### Claim C6 -/

/-- Resolve of an existing incident always reports
`{"resuelta": True, "espacio_liberado": True}`: both values are hardcoded
in `handle_resolve_incident`. -/
theorem resolve_ok_of_found (db : DB) (iid : Nat) (sol : String)
    (h : (db.incidencias.any fun i => i.id == iid) = true) :
    (handle_resolve_incident db (some iid) sol).1 = .ok (true, true) := by
  unfold handle_resolve_incident
  obtain ⟨inc, hmem, hp⟩ := List.any_eq_true.mp h
  have hsome : (db.incidencias.find? (fun i => i.id == iid)).isSome := by
    rw [List.find?_isSome]
    exact ⟨inc, hmem, hp⟩
  obtain ⟨inc2, hinc2⟩ := Option.isSome_iff_exists.mp hsome
  simp only [hinc2]

/-- C6 counterexample: after applying the block of incident `1` and
resolving it once (which deletes the block), resolving the same incident a
second time still reports `espacio_liberado = true`, where the claim
requires `released: false` on the second call. -/
theorem claim_C6_counterexample :
    (handle_resolve_incident
      (handle_resolve_incident dbBloqueado (some 1) "ok").2 (some 1) "ok").1 =
      .ok (true, true) ∧
    (handle_resolve_incident dbBloqueado (some 1) "ok").2.reservas = [] :=
  ⟨rfl, rfl⟩

/-- C6 amended: `resolve` on an existing incident never fails: it
hard-deletes (removes the rows, rather than changing their state) every
block interval of the incident's space and reports
`resuelta = true, espacio_liberado = true`; when no block interval exists
(already resolved or never applied) it still succeeds, but it again
reports `espacio_liberado = true` -- the flag is hardcoded, so calling
resolve twice in a row yields `true` twice, never `false`. -/
theorem claim_C6_amended (db : DB) (iid : Nat) (inc : Incidencia) (sol sol2 : String)
    (hf : db.incidencias.find? (fun i => i.id == iid) = some inc) :
    (handle_resolve_incident db (some iid) sol).1 = .ok (true, true) ∧
    (handle_resolve_incident db (some iid) sol).2.reservas =
      db.reservas.filter (fun r => !(esBloqueoActivo inc.espacio r)) ∧
    (handle_resolve_incident (handle_resolve_incident db (some iid) sol).2 (some iid) sol2).1 =
      .ok (true, true) := by
  have hmem : inc ∈ db.incidencias := List.mem_of_find?_eq_some hf
  have hp := List.find?_some hf
  have hany : (db.incidencias.any fun i => i.id == iid) = true :=
    List.any_eq_true.mpr ⟨inc, hmem, hp⟩
  refine ⟨resolve_ok_of_found db iid sol hany, ?_, ?_⟩
  · unfold handle_resolve_incident
    simp only [hf]
  · refine resolve_ok_of_found _ iid sol2 ?_
    unfold handle_resolve_incident
    simp only [hf]
    rw [List.any_map]
    refine List.any_eq_true.mpr ?_
    obtain ⟨inc0, hmem0, hp0⟩ := List.any_eq_true.mp hany
    refine ⟨inc0, hmem0, ?_⟩
    simp only [Function.comp_apply]
    split <;> simpa using hp0

/-- C6 witness: the amended theorem applied to the database holding the
block of incident `1`. -/
theorem claim_C6_witness :
    dbBloqueado.incidencias.find? (fun i => i.id == 1) = some ⟨1, "1", "abierta", ""⟩ ∧
    (handle_resolve_incident dbBloqueado (some 1) "ok").1 = .ok (true, true) ∧
    (handle_resolve_incident dbBloqueado (some 1) "ok").2.reservas =
      dbBloqueado.reservas.filter (fun r => !(esBloqueoActivo "1" r)) ∧
    (handle_resolve_incident
      (handle_resolve_incident dbBloqueado (some 1) "ok").2 (some 1) "no").1 =
      .ok (true, true) :=
  ⟨rfl, claim_C6_amended dbBloqueado 1 ⟨1, "1", "abierta", ""⟩ "ok" "no" rfl⟩

/-! ### Claim C10 -/

/-- C10: `handle_cancel_booking` succeeds exactly when the request names an
existing row whose `id_usuario` equals the supplied user (ownership), and
on any error the database is unchanged; a cancel naming an existing booking
owned by a different user therefore fails with the
`Reserva no encontrada o no autorizada` message and mutates nothing. -/
theorem claim_C10 (db : DB) (reserva : Option Nat) (user : String) :
    ((handle_cancel_booking db reserva user).1 = .ok () ↔
      ∃ rid, reserva = some rid ∧ ∃ r ∈ db.reservas, r.id = rid ∧ r.usuario = some user) ∧
    (∀ e, (handle_cancel_booking db reserva user).1 = .error e →
      (handle_cancel_booking db reserva user).2 = db) := by
  cases reserva with
  | none => simp [handle_cancel_booking]
  | some rid =>
    by_cases hc : (db.reservas.any fun r => r.id == rid && r.usuario == some user) = true
    · constructor
      · simp only [handle_cancel_booking, hc, Bool.not_true, Bool.false_eq_true, if_false]
        obtain ⟨r, hmem, hp⟩ := List.any_eq_true.mp hc
        rw [Bool.and_eq_true, beq_iff_eq, beq_iff_eq] at hp
        constructor
        · exact fun _ => ⟨rid, rfl, r, hmem, hp.1, hp.2⟩
        · intro _
          trivial
      · intro e he
        simp only [handle_cancel_booking, hc, Bool.not_true, Bool.false_eq_true, if_false] at he
        exact absurd he (by simp)
    · have hc0 : (db.reservas.any fun r => r.id == rid && r.usuario == some user) = false := by
        simpa using hc
      constructor
      · simp only [handle_cancel_booking, hc0, Bool.not_false, if_true]
        constructor
        · intro he
          exact absurd he (by simp)
        · rintro ⟨rid2, hrid2, r, hmem, hid, hus⟩
          have hr2 : rid2 = rid := by
            injection hrid2 with h2
            exact h2.symm
          subst hr2
          have hc1 : (db.reservas.any fun r => r.id == rid2 && r.usuario == some user) = true :=
            List.any_eq_true.mpr ⟨r, hmem, by simp [hid, hus]⟩
          rw [hc1] at hc0
          exact absurd hc0 (by simp)
      · intro e _
        simp [handle_cancel_booking, hc0]

/-- C10 witness: cancelling booking `1` (owned by `"2"`) as `"2"` succeeds;
attempting to cancel it as `"3"` fails and leaves the database unchanged. -/
theorem claim_C10_witness :
    (handle_cancel_booking dbAprobada (some 1) "2").1 = .ok () ∧
    (handle_cancel_booking dbAprobada (some 1) "3").2 = dbAprobada :=
  ⟨(claim_C10 dbAprobada (some 1) "2").1.mpr
      ⟨1, rfl, ⟨1, some "2", "1", 840, 960, "aprobada", "x", "normal"⟩, by decide, rfl, rfl⟩,
    (claim_C10 dbAprobada (some 1) "3").2 "Reserva no encontrada o no autorizada" rfl⟩

/-! ### Frame codec (claims C7 and C8)

`parse_message` and `format_response` delegate payload serialization to
Python's `json` module.  The payloads exchanged by the services are JSON
values (objects, arrays, strings, integers, booleans, null), so the module
is modelled by an executable serializer and parser over the `Json` type
below.  `dumps` follows `json.dumps(..., ensure_ascii=False)` with its
default separators `", "` and `": "`; string escaping covers the quote and
backslash (control characters inside strings are emitted verbatim instead
of as escape sequences, which changes no length or round-trip fact used by
the claims); numbers are integers (the services never emit floats).
Recursions are driven by an explicit fuel so that every function reduces
definitionally on concrete inputs; the fuel passed by the wrappers is
proved sufficient below. -/

/-- A structured payload value. -/
inductive Json where
  | null
  | bool (b : Bool)
  | num (n : Int)
  | str (s : String)
  | arr (elems : List Json)
  | obj (kvs : List (String × Json))

/-- Decimal digit character of `n < 10`. -/
def digitChar (n : Nat) : Char :=
  match n with
  | 0 => '0' | 1 => '1' | 2 => '2' | 3 => '3' | 4 => '4'
  | 5 => '5' | 6 => '6' | 7 => '7' | 8 => '8' | _ => '9'

/-- Fueled digit expansion; `natToChars` supplies sufficient fuel. -/
def natToCharsGo : Nat → Nat → List Char
  | 0, _ => []
  | f + 1, n =>
    if n < 10 then [digitChar n] else natToCharsGo f (n / 10) ++ [digitChar (n % 10)]

/-- Decimal representation of a natural, most significant digit first
(Python `str` on a non-negative int). -/
def natToChars (n : Nat) : List Char :=
  natToCharsGo (n + 1) n

/-- Decimal representation of an integer (Python `str` on an int). -/
def intToChars (n : Int) : List Char :=
  if n < 0 then '-' :: natToChars (-n).toNat else natToChars n.toNat

/-- Value of a list of decimal digit characters. -/
def digitsVal (ds : List Char) : Nat :=
  ds.foldl (fun a c => 10 * a + (c.toNat - 48)) 0

/-- Python `str.zfill`: left-pad with zeros to width `w`. -/
def zfill (w : Nat) (s : List Char) : List Char :=
  List.replicate (w - s.length) '0' ++ s

theorem natToCharsGo_irrel (n : Nat) :
    ∀ f g, n < f → n < g → natToCharsGo f n = natToCharsGo g n := by
  induction n using Nat.strong_induction_on with
  | _ n ih =>
    intro f g hf hg
    match f, g with
    | f2 + 1, g2 + 1 =>
      simp only [natToCharsGo]
      split
      · rfl
      next h =>
        have hd : n / 10 < n := Nat.div_lt_self (by omega) (by omega)
        rw [ih (n / 10) hd (f2) (g2) (by omega) (by omega)]

theorem natToChars_eq (n : Nat) :
    natToChars n =
      if n < 10 then [digitChar n] else natToChars (n / 10) ++ [digitChar (n % 10)] := by
  show natToCharsGo (n + 1) n = _
  simp only [natToCharsGo]
  split
  · rfl
  next h =>
    have hd : n / 10 < n := Nat.div_lt_self (by omega) (by omega)
    rw [natToCharsGo_irrel (n / 10) n (n / 10 + 1) (by omega) (by omega)]
    rfl

theorem natToChars_ne_nil (n : Nat) : natToChars n ≠ [] := by
  rw [natToChars_eq]
  split <;> simp

theorem digitsVal_append_digit (xs : List Char) (d : Char) :
    digitsVal (xs ++ [d]) = 10 * digitsVal xs + (d.toNat - 48) := by
  unfold digitsVal
  rw [List.foldl_append]
  rfl

theorem digitChar_toNat (n : Nat) (h : n < 10) : (digitChar n).toNat = 48 + n := by
  interval_cases n <;> rfl

theorem digitsVal_natToChars (n : Nat) : digitsVal (natToChars n) = n := by
  induction n using Nat.strong_induction_on with
  | _ n ih =>
    rw [natToChars_eq]
    split
    next h =>
      unfold digitsVal
      simp [List.foldl_cons, digitChar_toNat n h]
    next h =>
      rw [digitsVal_append_digit, ih (n / 10) (Nat.div_lt_self (by omega) (by omega)),
        digitChar_toNat (n % 10) (Nat.mod_lt _ (by omega))]
      omega

theorem digitsVal_replicate_zero (k : Nat) (s : List Char) :
    digitsVal (List.replicate k '0' ++ s) = digitsVal s := by
  induction k with
  | zero => rfl
  | succ k ih =>
    unfold digitsVal at ih ⊢
    simpa using ih

theorem digitsVal_zfill (w : Nat) (s : List Char) : digitsVal (zfill w s) = digitsVal s :=
  digitsVal_replicate_zero _ s

theorem natToChars_length_le (k : Nat) (hk : 1 ≤ k) :
    ∀ n, n < 10 ^ k → (natToChars n).length ≤ k := by
  induction k with
  | zero => omega
  | succ k ih =>
    intro n hn
    rw [natToChars_eq]
    split
    next => simp [hk]
    next h =>
      rcases Nat.eq_or_lt_of_le hk with hk1 | hk1
      · exfalso
        rw [← hk1] at hn
        simp at hn
        omega
      · have hdiv : n / 10 < 10 ^ k := by
          rw [Nat.div_lt_iff_lt_mul (by omega)]
          calc n < 10 ^ (k + 1) := hn
          _ = 10 ^ k * 10 := by rw [Nat.pow_succ]
        have := ih (by omega) (n / 10) hdiv
        simp only [List.length_append, List.length_cons, List.length_nil]
        omega

theorem zfill_length_of_le (w : Nat) (s : List Char) (h : s.length ≤ w) :
    (zfill w s).length = w := by
  simp [zfill]
  omega

/-- Whitespace as skipped by the JSON parser and stripped by Python
`str.strip` (the protocol only ever pads with plain spaces). -/
def isWsChar (c : Char) : Bool :=
  c == ' ' || c == '\t' || c == '\n' || c == '\r'

/-- Drop leading whitespace. -/
def skipWs (s : List Char) : List Char :=
  s.dropWhile isWsChar

/-- Python `str.strip`: drop leading and trailing whitespace. -/
def stripChars (s : List Char) : List Char :=
  ((s.dropWhile isWsChar).reverse.dropWhile isWsChar).reverse

/-- JSON escaping of one character inside a string literal. -/
def escapeChar (c : Char) : List Char :=
  if c = '"' then ['\\', '"']
  else if c = '\\' then ['\\', '\\']
  else [c]

/-- JSON escaping of a string body. -/
def escapeStr : List Char → List Char
  | [] => []
  | c :: cs => escapeChar c ++ escapeStr cs

/-- Inverse of `escapeChar` on the character following a backslash. -/
def unescapeChar (c : Char) : Option Char :=
  if c = '"' then some '"'
  else if c = '\\' then some '\\'
  else none

/-- Fueled JSON string body parser up to the closing quote, returning the
unescaped characters and the input after the quote; `parseStrBody`
supplies sufficient fuel. -/
def parseStrBodyGo : Nat → List Char → Option (List Char × List Char)
  | 0, _ => none
  | _ + 1, [] => none
  | f + 1, c :: rest =>
    if c = '"' then some ([], rest)
    else if c = '\\' then
      match rest with
      | [] => none
      | e :: rest2 =>
        match unescapeChar e with
        | some u => (parseStrBodyGo f rest2).map (fun p => (u :: p.1, p.2))
        | none => none
    else (parseStrBodyGo f rest).map (fun p => (c :: p.1, p.2))

/-- Parse a JSON string body. -/
def parseStrBody (s : List Char) : Option (List Char × List Char) :=
  parseStrBodyGo (s.length + 1) s

theorem parseStrBodyGo_escape (s : List Char) :
    ∀ f rest, (escapeStr s).length < f →
      parseStrBodyGo f (escapeStr s ++ '"' :: rest) = some (s, rest) := by
  induction s with
  | nil =>
    intro f rest hf
    match f with
    | f2 + 1 => rfl
  | cons c cs ih =>
    intro f rest hf
    by_cases h1 : c = '"'
    · subst h1
      have hlen : (escapeStr ('"' :: cs)).length = (escapeStr cs).length + 2 := by
        simp [escapeStr, escapeChar]
      match f with
      | f2 + 1 =>
        have := ih f2 rest (by omega)
        simp only [escapeStr, escapeChar, if_pos rfl, List.cons_append, List.nil_append]
        show parseStrBodyGo (f2 + 1) ('\\' :: '"' :: (escapeStr cs ++ '"' :: rest)) = _
        simp only [parseStrBodyGo, if_neg (by decide : ¬('\\' : Char) = '"'), if_pos rfl,
          unescapeChar]
        rw [this]
        rfl
    · by_cases h2 : c = '\\'
      · subst h2
        have hlen : (escapeStr ('\\' :: cs)).length = (escapeStr cs).length + 2 := by
          simp [escapeStr, escapeChar]
        match f with
        | f2 + 1 =>
          have := ih f2 rest (by omega)
          simp only [escapeStr, escapeChar, if_neg (by decide : ¬('\\' : Char) = '"'),
            if_pos rfl, List.cons_append, List.nil_append]
          show parseStrBodyGo (f2 + 1) ('\\' :: '\\' :: (escapeStr cs ++ '"' :: rest)) = _
          simp only [parseStrBodyGo, if_neg (by decide : ¬('\\' : Char) = '"'), if_pos rfl,
            unescapeChar, if_neg (by decide : ¬('\\' : Char) = '"')]
          rw [this]
          rfl
      · have hlen : (escapeStr (c :: cs)).length = (escapeStr cs).length + 1 := by
          simp [escapeStr, escapeChar, h1, h2]
        match f with
        | f2 + 1 =>
          have := ih f2 rest (by omega)
          simp only [escapeStr, escapeChar, if_neg h1, if_neg h2, List.cons_append,
            List.nil_append]
          show parseStrBodyGo (f2 + 1) (c :: (escapeStr cs ++ '"' :: rest)) = _
          simp only [parseStrBodyGo, if_neg h1, if_neg h2]
          rw [this]
          rfl

theorem parseStrBody_escape (s rest : List Char) :
    parseStrBody (escapeStr s ++ '"' :: rest) = some (s, rest) := by
  unfold parseStrBody
  refine parseStrBodyGo_escape s _ rest ?_
  simp
  omega

/-- First character test. -/
def headIs (c : Char) (s : List Char) : Bool :=
  match s with
  | x :: _ => x == c
  | [] => false

/-- Match an expected literal character sequence, returning the rest. -/
def expectChars : List Char → List Char → Option (List Char)
  | [], s => some s
  | _ :: _, [] => none
  | e :: es, c :: s => if c = e then expectChars es s else none

theorem expectChars_append (pat rest : List Char) :
    expectChars pat (pat ++ rest) = some rest := by
  induction pat with
  | nil => rfl
  | cons e es ih => simp [expectChars, ih]

/-- `true` when number parsing would stop at the head of the input. -/
def numDelim : List Char → Bool
  | [] => true
  | c :: _ => !c.isDigit

/-- Parse a run of decimal digits. -/
def parseNat (s : List Char) : Option (Nat × List Char) :=
  let ds := s.takeWhile Char.isDigit
  if ds.isEmpty then none
  else some (digitsVal ds, s.dropWhile Char.isDigit)

/-- Parse an optionally negated integer. -/
def parseNum (s : List Char) : Option (Json × List Char) :=
  match s with
  | [] => none
  | c :: rest =>
    if c = '-' then (parseNat rest).map (fun p => (Json.num (-(p.1 : Int)), p.2))
    else (parseNat (c :: rest)).map (fun p => (Json.num (p.1 : Int), p.2))

theorem digitChar_isDigit (n : Nat) (h : n < 10) : (digitChar n).isDigit = true := by
  interval_cases n <;> rfl

theorem natToChars_all_digits (n : Nat) : ∀ c ∈ natToChars n, c.isDigit = true := by
  induction n using Nat.strong_induction_on with
  | _ n ih =>
    intro c hc
    rw [natToChars_eq] at hc
    split at hc
    next h =>
      rw [List.mem_singleton] at hc
      subst hc
      exact digitChar_isDigit n h
    next h =>
      rw [List.mem_append, List.mem_singleton] at hc
      rcases hc with hc | hc
      · exact ih (n / 10) (Nat.div_lt_self (by omega) (by omega)) c hc
      · subst hc
        exact digitChar_isDigit (n % 10) (Nat.mod_lt _ (by omega))

theorem takeWhile_digits_append (ds rest : List Char)
    (hds : ∀ c ∈ ds, c.isDigit = true) (hrest : numDelim rest = true) :
    (ds ++ rest).takeWhile Char.isDigit = ds ∧
      (ds ++ rest).dropWhile Char.isDigit = rest := by
  induction ds with
  | nil =>
    cases rest with
    | nil => exact ⟨rfl, rfl⟩
    | cons c cs =>
      unfold numDelim at hrest
      rw [Bool.not_eq_true'] at hrest
      simp [List.takeWhile_cons, List.dropWhile_cons, hrest]
  | cons d ds2 ih =>
    have hd : d.isDigit = true := hds d (by simp)
    have ih2 := ih (fun c hc => hds c (by simp [hc]))
    simp [List.takeWhile_cons, List.dropWhile_cons, hd, ih2.1, ih2.2]

theorem parseNat_natToChars (n : Nat) (rest : List Char) (h : numDelim rest = true) :
    parseNat (natToChars n ++ rest) = some (n, rest) := by
  have htd := takeWhile_digits_append (natToChars n) rest (natToChars_all_digits n) h
  unfold parseNat
  rw [htd.1, htd.2]
  have hne := natToChars_ne_nil n
  simp only [List.isEmpty_iff]
  rw [if_neg hne, digitsVal_natToChars]

theorem natToChars_head_digit (n : Nat) :
    ∃ d ds, natToChars n = d :: ds ∧ d.isDigit = true := by
  rcases he : natToChars n with _ | ⟨d, ds⟩
  · exact absurd he (natToChars_ne_nil n)
  · exact ⟨d, ds, rfl, natToChars_all_digits n d (by rw [he]; simp)⟩

theorem ne_of_isDigit {c x : Char} (h : c.isDigit = true) (hx : x.isDigit = false) :
    c ≠ x := by
  intro he
  rw [he, hx] at h
  cases h

theorem parseNum_intToChars (n : Int) (rest : List Char) (h : numDelim rest = true) :
    parseNum (intToChars n ++ rest) = some (Json.num n, rest) := by
  by_cases hneg : n < 0
  · have h1 : intToChars n = '-' :: natToChars (-n).toNat := by
      simp [intToChars, hneg]
    rw [h1, List.cons_append]
    have h2 : parseNum ('-' :: (natToChars (-n).toNat ++ rest)) =
        (parseNat (natToChars (-n).toNat ++ rest)).map
          (fun p => (Json.num (-(p.1 : Int)), p.2)) := rfl
    rw [h2, parseNat_natToChars _ rest h]
    have h3 : (((-n).toNat : Int)) = -n := Int.toNat_of_nonneg (by omega)
    simp [h3]
  · have h1 : intToChars n = natToChars n.toNat := by
      simp [intToChars, hneg]
    obtain ⟨d, ds, hds, hdig⟩ := natToChars_head_digit n.toNat
    rw [h1, hds, List.cons_append]
    have h2 : parseNum (d :: (ds ++ rest)) =
        if d = '-' then
          (parseNat (ds ++ rest)).map (fun p => (Json.num (-(p.1 : Int)), p.2))
        else (parseNat (d :: (ds ++ rest))).map (fun p => (Json.num (p.1 : Int), p.2)) := rfl
    rw [h2, if_neg (ne_of_isDigit hdig (by rfl)), ← List.cons_append, ← hds,
      parseNat_natToChars _ rest h]
    have h3 : ((n.toNat : Int)) = n := Int.toNat_of_nonneg (by omega)
    simp [h3]

/-- A JSON string literal: quote, escaped body, quote. -/
def dumpsStrLit (s : String) : List Char :=
  '"' :: (escapeStr s.data ++ ['"'])

mutual
/-- `json.dumps(..., ensure_ascii=False)` with the default separators
`", "` and `": "`. -/
def dumpsVal : Json → List Char
  | .null => "null".toList
  | .bool true => "true".toList
  | .bool false => "false".toList
  | .num n => intToChars n
  | .str s => dumpsStrLit s
  | .arr xs => '[' :: dumpsArr xs
  | .obj kvs => '\x7b' :: dumpsObj kvs

/-- Serialized array items and closing bracket. -/
def dumpsArr : List Json → List Char
  | [] => [']']
  | x :: xs => dumpsVal x ++ dumpsArrTail xs

/-- Serialized array items after the first, each preceded by `", "`. -/
def dumpsArrTail : List Json → List Char
  | [] => [']']
  | y :: ys => ',' :: ' ' :: (dumpsVal y ++ dumpsArrTail ys)

/-- Serialized object members and closing brace. -/
def dumpsObj : List (String × Json) → List Char
  | [] => ['\x7d']
  | kv :: kvs => dumpsStrLit kv.1 ++ ':' :: ' ' :: (dumpsVal kv.2 ++ dumpsObjTail kvs)

/-- Serialized object members after the first, each preceded by `", "`. -/
def dumpsObjTail : List (String × Json) → List Char
  | [] => ['\x7d']
  | kv :: kvs =>
    ',' :: ' ' :: (dumpsStrLit kv.1 ++ ':' :: ' ' :: (dumpsVal kv.2 ++ dumpsObjTail kvs))
end

/-- Parse one `"key": value` object member, with `p` parsing the value. -/
def parseKV (p : List Char → Option (Json × List Char)) (s : List Char) :
    Option ((String × Json) × List Char) :=
  if headIs '"' s then
    match parseStrBody s.tail with
    | none => none
    | some (k, r1) =>
      let r2 := skipWs r1
      if headIs ':' r2 then
        match p (skipWs r2.tail) with
        | none => none
        | some (v, r3) => some ((String.mk k, v), r3)
      else none
  else none

/-- Parse the items of an array after the first one: a closing `]` or a
`", "`-separated continuation, with `p` parsing each value. -/
def parseElems (p : List Char → Option (Json × List Char)) : Nat → List Char →
    Option (List Json × List Char)
  | g, s =>
    if headIs ']' s then some ([], s.tail)
    else
      match g with
      | 0 => none
      | g2 + 1 =>
        if headIs ',' s then
          match p (skipWs s.tail) with
          | none => none
          | some (v, r2) =>
            match parseElems p g2 (skipWs r2) with
            | none => none
            | some (vs, r3) => some (v :: vs, r3)
        else none

/-- Parse the members of an object after the first one. -/
def parseMembers (p : List Char → Option (Json × List Char)) : Nat → List Char →
    Option (List (String × Json) × List Char)
  | g, s =>
    if headIs '\x7d' s then some ([], s.tail)
    else
      match g with
      | 0 => none
      | g2 + 1 =>
        if headIs ',' s then
          match parseKV p (skipWs s.tail) with
          | none => none
          | some (kv, r2) =>
            match parseMembers p g2 (skipWs r2) with
            | none => none
            | some (kvs, r3) => some (kv :: kvs, r3)
        else none

/-- Fueled JSON value parser; `jsonLoads` supplies sufficient fuel (the
input length, which bounds every recursion since each recursive call
consumes at least one character). -/
def parseVal : Nat → List Char → Option (Json × List Char)
  | 0 => fun _ => none
  | f + 1 => fun s =>
    match s with
    | [] => none
    | c :: rest =>
      if c = 'n' then (expectChars "ull".toList rest).map (fun r => (Json.null, r))
      else if c = 't' then (expectChars "rue".toList rest).map (fun r => (Json.bool true, r))
      else if c = 'f' then (expectChars "alse".toList rest).map (fun r => (Json.bool false, r))
      else if c = '"' then (parseStrBody rest).map (fun p => (Json.str (String.mk p.1), p.2))
      else if c = '[' then
        let r1 := skipWs rest
        if headIs ']' r1 then some (Json.arr [], r1.tail)
        else
          match parseVal f r1 with
          | none => none
          | some (v, r2) =>
            match parseElems (parseVal f) f (skipWs r2) with
            | none => none
            | some (vs, r3) => some (Json.arr (v :: vs), r3)
      else if c = '\x7b' then
        let r1 := skipWs rest
        if headIs '\x7d' r1 then some (Json.obj [], r1.tail)
        else
          match parseKV (parseVal f) r1 with
          | none => none
          | some (kv, r2) =>
            match parseMembers (parseVal f) f (skipWs r2) with
            | none => none
            | some (kvs, r3) => some (Json.obj (kv :: kvs), r3)
      else parseNum (c :: rest)

theorem intToChars_head (n : Int) :
    ∃ c t, intToChars n = c :: t ∧ (c = '-' ∨ c.isDigit = true) := by
  unfold intToChars
  split
  · exact ⟨'-', natToChars (-n).toNat, rfl, Or.inl rfl⟩
  · obtain ⟨d, ds, hds, hdig⟩ := natToChars_head_digit n.toNat
    exact ⟨d, ds, hds, Or.inr hdig⟩

theorem isDigit_not_ws {c : Char} (h : c.isDigit = true) : isWsChar c = false := by
  unfold isWsChar
  rw [beq_eq_false_iff_ne.mpr (ne_of_isDigit h (by rfl)),
    beq_eq_false_iff_ne.mpr (ne_of_isDigit h (by rfl)),
    beq_eq_false_iff_ne.mpr (ne_of_isDigit h (by rfl)),
    beq_eq_false_iff_ne.mpr (ne_of_isDigit h (by rfl))]
  rfl

theorem numHead_props {c : Char} (h : c = '-' ∨ c.isDigit = true) :
    isWsChar c = false ∧ (c == ']') = false ∧ (c == '\x7d') = false := by
  rcases h with h | h
  · subst h
    decide
  · exact ⟨isDigit_not_ws h,
      beq_eq_false_iff_ne.mpr (ne_of_isDigit h (by rfl)),
      beq_eq_false_iff_ne.mpr (ne_of_isDigit h (by rfl))⟩

theorem dumpsVal_head (v : Json) :
    ∃ c t, dumpsVal v = c :: t ∧ isWsChar c = false ∧
      (c == ']') = false ∧ (c == '\x7d') = false := by
  cases v with
  | null => exact ⟨'n', ['u', 'l', 'l'], by simp [dumpsVal], rfl, rfl, rfl⟩
  | bool b =>
    cases b with
    | true => exact ⟨'t', ['r', 'u', 'e'], by simp [dumpsVal], rfl, rfl, rfl⟩
    | false => exact ⟨'f', ['a', 'l', 's', 'e'], by simp [dumpsVal], rfl, rfl, rfl⟩
  | num n =>
    obtain ⟨c, t, hct, hd⟩ := intToChars_head n
    obtain ⟨h1, h2, h3⟩ := numHead_props hd
    exact ⟨c, t, by simp [dumpsVal, hct], h1, h2, h3⟩
  | str s =>
    exact ⟨'"', escapeStr s.data ++ ['"'], by simp [dumpsVal, dumpsStrLit], rfl, rfl, rfl⟩
  | arr xs => exact ⟨'[', dumpsArr xs, by simp [dumpsVal], rfl, rfl, rfl⟩
  | obj kvs => exact ⟨'\x7b', dumpsObj kvs, by simp [dumpsVal], rfl, rfl, rfl⟩

theorem skipWs_dumps (v : Json) (r : List Char) :
    skipWs (dumpsVal v ++ r) = dumpsVal v ++ r := by
  obtain ⟨c, t, hct, hws, _, _⟩ := dumpsVal_head v
  rw [hct]
  simp [skipWs, List.dropWhile_cons, hws]

theorem headIs_rbracket_dumps (v : Json) (r : List Char) :
    headIs ']' (dumpsVal v ++ r) = false := by
  obtain ⟨c, t, hct, _, hb, _⟩ := dumpsVal_head v
  rw [hct]
  simpa [headIs] using hb

theorem headIs_rbrace_dumps (v : Json) (r : List Char) :
    headIs '\x7d' (dumpsVal v ++ r) = false := by
  obtain ⟨c, t, hct, _, _, hb⟩ := dumpsVal_head v
  rw [hct]
  simpa [headIs] using hb

theorem numDelim_arrTail (xs : List Json) (r : List Char) :
    numDelim (dumpsArrTail xs ++ r) = true := by
  cases xs <;> simp [dumpsArrTail, numDelim]

theorem numDelim_objTail (kvs : List (String × Json)) (r : List Char) :
    numDelim (dumpsObjTail kvs ++ r) = true := by
  cases kvs <;> simp [dumpsObjTail, numDelim]

theorem skipWs_arrTail (xs : List Json) (r : List Char) :
    skipWs (dumpsArrTail xs ++ r) = dumpsArrTail xs ++ r := by
  cases xs <;> simp [dumpsArrTail, skipWs, List.dropWhile_cons, isWsChar]

theorem skipWs_objTail (kvs : List (String × Json)) (r : List Char) :
    skipWs (dumpsObjTail kvs ++ r) = dumpsObjTail kvs ++ r := by
  cases kvs <;> simp [dumpsObjTail, skipWs, List.dropWhile_cons, isWsChar]

theorem dumpsVal_length_pos (v : Json) : 1 ≤ (dumpsVal v).length := by
  obtain ⟨c, t, hct, _, _, _⟩ := dumpsVal_head v
  rw [hct]
  simp

theorem dumpsArrTail_length_pos (xs : List Json) : 1 ≤ (dumpsArrTail xs).length := by
  cases xs <;> simp [dumpsArrTail]

theorem dumpsObjTail_length_pos (kvs : List (String × Json)) :
    1 ≤ (dumpsObjTail kvs).length := by
  cases kvs <;> simp [dumpsObjTail]

theorem numHead_ne_branch {c : Char} (h : c = '-' ∨ c.isDigit = true) :
    c ≠ 'n' ∧ c ≠ 't' ∧ c ≠ 'f' ∧ c ≠ '"' ∧ c ≠ '[' ∧ c ≠ '\x7b' := by
  rcases h with h | h
  · subst h
    decide
  · exact ⟨ne_of_isDigit h (by rfl), ne_of_isDigit h (by rfl), ne_of_isDigit h (by rfl),
      ne_of_isDigit h (by rfl), ne_of_isDigit h (by rfl), ne_of_isDigit h (by rfl)⟩

theorem parseKV_spec (p : List Char → Option (Json × List Char)) (k : String) (v : Json)
    (rest : List Char) (hp : p (dumpsVal v ++ rest) = some (v, rest)) :
    parseKV p (dumpsStrLit k ++ ':' :: ' ' :: (dumpsVal v ++ rest)) = some ((k, v), rest) := by
  have h1 : dumpsStrLit k ++ ':' :: ' ' :: (dumpsVal v ++ rest) =
      '"' :: (escapeStr k.data ++ '"' :: ':' :: ' ' :: (dumpsVal v ++ rest)) := by
    simp [dumpsStrLit]
  rw [h1]
  unfold parseKV
  simp only [headIs, beq_self_eq_true, if_true, List.tail_cons, parseStrBody_escape]
  have h2 : skipWs (':' :: ' ' :: (dumpsVal v ++ rest)) =
      ':' :: ' ' :: (dumpsVal v ++ rest) := by
    simp [skipWs, List.dropWhile_cons, isWsChar]
  rw [h2]
  simp only [headIs, beq_self_eq_true, if_true, List.tail_cons]
  have h3 : skipWs (' ' :: (dumpsVal v ++ rest)) = dumpsVal v ++ rest := by
    simp only [skipWs, List.dropWhile_cons]
    rw [if_pos (by rfl)]
    exact skipWs_dumps v rest
  rw [h3, hp]

theorem dumpsArrTail_length_gt (xs : List Json) : xs.length < (dumpsArrTail xs).length := by
  induction xs with
  | nil => simp [dumpsArrTail]
  | cons y ys ih =>
    have := dumpsVal_length_pos y
    simp only [dumpsArrTail, List.length_cons, List.length_append]
    omega

theorem dumpsObjTail_length_gt (kvs : List (String × Json)) :
    kvs.length < (dumpsObjTail kvs).length := by
  induction kvs with
  | nil => simp [dumpsObjTail]
  | cons kv kvs2 ih =>
    have := dumpsVal_length_pos kv.2
    simp only [dumpsObjTail, List.length_cons, List.length_append]
    omega

theorem parseElems_spec (p : List Char → Option (Json × List Char)) (N : Nat) :
    ∀ xs g rest, xs.length ≤ g →
      (∀ x ∈ xs, ∀ r, numDelim r = true → (dumpsVal x ++ r).length < N →
        p (dumpsVal x ++ r) = some (x, r)) →
      (dumpsArrTail xs ++ rest).length ≤ N →
      parseElems p g (dumpsArrTail xs ++ rest) = some (xs, rest) := by
  intro xs
  induction xs with
  | nil =>
    intro g rest _ _ _
    have h1 : dumpsArrTail ([] : List Json) ++ rest = ']' :: rest := by
      simp [dumpsArrTail]
    rw [h1]
    unfold parseElems
    simp [headIs]
  | cons y ys ih =>
    intro g rest hg hp hN
    have h1 : dumpsArrTail (y :: ys) ++ rest =
        ',' :: ' ' :: (dumpsVal y ++ (dumpsArrTail ys ++ rest)) := by
      simp [dumpsArrTail]
    rw [h1] at hN ⊢
    obtain ⟨g2, rfl⟩ : ∃ g2, g = g2 + 1 := by
      cases g with
      | zero => simp at hg
      | succ g2 => exact ⟨g2, rfl⟩
    unfold parseElems
    rw [if_neg (by simp [headIs])]
    simp only [headIs, beq_self_eq_true, if_true, List.tail_cons]
    have h2 : skipWs (' ' :: (dumpsVal y ++ (dumpsArrTail ys ++ rest))) =
        dumpsVal y ++ (dumpsArrTail ys ++ rest) := by
      simp only [skipWs, List.dropWhile_cons]
      rw [if_pos (by rfl)]
      exact skipWs_dumps y _
    rw [h2]
    have hylen : 1 ≤ (dumpsVal y).length := dumpsVal_length_pos y
    have hlen : (dumpsVal y ++ (dumpsArrTail ys ++ rest)).length < N := by
      simp only [List.length_append, List.length_cons] at hN ⊢
      omega
    rw [hp y (by simp) _ (numDelim_arrTail ys rest) hlen]
    simp only [skipWs_arrTail]
    rw [ih g2 rest (by simpa using hg) (fun x hx => hp x (by simp [hx])) (by
      simp only [List.length_append, List.length_cons] at hN ⊢
      omega)]

theorem parseMembers_spec (p : List Char → Option (Json × List Char)) (N : Nat) :
    ∀ kvs g rest, kvs.length ≤ g →
      (∀ kv ∈ kvs, ∀ r, numDelim r = true → (dumpsVal kv.2 ++ r).length < N →
        p (dumpsVal kv.2 ++ r) = some (kv.2, r)) →
      (dumpsObjTail kvs ++ rest).length ≤ N →
      parseMembers p g (dumpsObjTail kvs ++ rest) = some (kvs, rest) := by
  intro kvs
  induction kvs with
  | nil =>
    intro g rest _ _ _
    have h1 : dumpsObjTail ([] : List (String × Json)) ++ rest = '\x7d' :: rest := by
      simp [dumpsObjTail]
    rw [h1]
    unfold parseMembers
    simp [headIs]
  | cons kv kvs2 ih =>
    intro g rest hg hp hN
    have h1 : dumpsObjTail (kv :: kvs2) ++ rest =
        ',' :: ' ' :: (dumpsStrLit kv.1 ++ ':' :: ' ' ::
          (dumpsVal kv.2 ++ (dumpsObjTail kvs2 ++ rest))) := by
      simp [dumpsObjTail]
    rw [h1] at hN ⊢
    obtain ⟨g2, rfl⟩ : ∃ g2, g = g2 + 1 := by
      cases g with
      | zero => simp at hg
      | succ g2 => exact ⟨g2, rfl⟩
    unfold parseMembers
    rw [if_neg (by simp [headIs])]
    simp only [headIs, beq_self_eq_true, if_true, List.tail_cons]
    have h2 : skipWs (' ' :: (dumpsStrLit kv.1 ++ ':' :: ' ' ::
        (dumpsVal kv.2 ++ (dumpsObjTail kvs2 ++ rest)))) =
        dumpsStrLit kv.1 ++ ':' :: ' ' :: (dumpsVal kv.2 ++ (dumpsObjTail kvs2 ++ rest)) := by
      simp only [skipWs, List.dropWhile_cons]
      rw [if_pos (by rfl)]
      simp [dumpsStrLit, skipWs, List.dropWhile_cons, isWsChar]
    rw [h2]
    have hylen : 1 ≤ (dumpsVal kv.2).length := dumpsVal_length_pos kv.2
    have hlen : (dumpsVal kv.2 ++ (dumpsObjTail kvs2 ++ rest)).length < N := by
      simp only [List.length_append, List.length_cons, dumpsStrLit] at hN ⊢
      omega
    have hkv : parseKV p (dumpsStrLit kv.1 ++ ':' :: ' ' ::
        (dumpsVal kv.2 ++ (dumpsObjTail kvs2 ++ rest))) =
        some ((kv.1, kv.2), dumpsObjTail kvs2 ++ rest) :=
      parseKV_spec p kv.1 kv.2 _ (hp kv (by simp) _ (numDelim_objTail kvs2 rest) hlen)
    rw [hkv]
    simp only [skipWs_objTail]
    rw [ih g2 rest (by simpa using hg) (fun kv2 hkv2 => hp kv2 (by simp [hkv2])) (by
      simp only [List.length_append, List.length_cons, dumpsStrLit] at hN ⊢
      omega)]

theorem parseVal_dumps : ∀ f v rest, (dumpsVal v ++ rest).length < f →
    numDelim rest = true → parseVal f (dumpsVal v ++ rest) = some (v, rest) := by
  intro f
  induction f with
  | zero =>
    intro v rest hlen _
    have := dumpsVal_length_pos v
    simp only [List.length_append] at hlen
    omega
  | succ f ih =>
    intro v rest hlen hrest
    cases v with
    | null =>
      have h1 : dumpsVal Json.null ++ rest = 'n' :: ("ull".toList ++ rest) := by
        simp [dumpsVal]
      rw [h1]
      simp only [parseVal]
      rw [if_pos trivial, expectChars_append]
      rfl
    | bool b =>
      cases b with
      | true =>
        have h1 : dumpsVal (Json.bool true) ++ rest = 't' :: ("rue".toList ++ rest) := by
          simp [dumpsVal]
        rw [h1]
        simp only [parseVal]
        rw [if_pos trivial, expectChars_append]
        rfl
      | false =>
        have h1 : dumpsVal (Json.bool false) ++ rest = 'f' :: ("alse".toList ++ rest) := by
          simp [dumpsVal]
        rw [h1]
        simp only [parseVal]
        rw [if_pos trivial, expectChars_append]
        rfl
    | num n =>
      obtain ⟨c, t, hct, hd⟩ := intToChars_head n
      have hne := numHead_ne_branch hd
      have h1 : dumpsVal (Json.num n) ++ rest = c :: (t ++ rest) := by
        simp [dumpsVal, hct]
      rw [h1]
      simp only [parseVal]
      rw [if_neg hne.1, if_neg hne.2.1, if_neg hne.2.2.1, if_neg hne.2.2.2.1,
        if_neg hne.2.2.2.2.1, if_neg hne.2.2.2.2.2, ← List.cons_append, ← hct]
      exact parseNum_intToChars n rest hrest
    | str s =>
      have h1 : dumpsVal (Json.str s) ++ rest = '"' :: (escapeStr s.data ++ '"' :: rest) := by
        simp [dumpsVal, dumpsStrLit]
      rw [h1]
      simp only [parseVal]
      rw [if_pos trivial, parseStrBody_escape]
      rfl
    | arr xs =>
      cases xs with
      | nil =>
        have h1 : dumpsVal (Json.arr []) ++ rest = '[' :: (']' :: rest) := by
          simp [dumpsVal, dumpsArr]
        rw [h1]
        simp [parseVal, skipWs, List.dropWhile_cons, isWsChar, headIs]
      | cons x xs2 =>
        have h1 : dumpsVal (Json.arr (x :: xs2)) ++ rest =
            '[' :: (dumpsVal x ++ (dumpsArrTail xs2 ++ rest)) := by
          simp [dumpsVal, dumpsArr]
        rw [h1] at hlen ⊢
        have hx := dumpsVal_length_pos x
        have htail := dumpsArrTail_length_pos xs2
        have htgt := dumpsArrTail_length_gt xs2
        simp only [List.length_cons, List.length_append] at hlen
        have hlen2 : (dumpsVal x ++ (dumpsArrTail xs2 ++ rest)).length < f := by
          simp only [List.length_append]
          omega
        have hih := ih x (dumpsArrTail xs2 ++ rest) hlen2 (numDelim_arrTail xs2 rest)
        have hel : parseElems (parseVal f) f (dumpsArrTail xs2 ++ rest) = some (xs2, rest) := by
          refine parseElems_spec (parseVal f) f xs2 f rest ?_ ?_ ?_
          · omega
          · intro x2 _ r hr hlt
            exact ih x2 r hlt hr
          · simp only [List.length_append]
            omega
        simp [parseVal, skipWs_dumps, headIs_rbracket_dumps, hih, skipWs_arrTail, hel]
    | obj kvs =>
      cases kvs with
      | nil =>
        have h1 : dumpsVal (Json.obj []) ++ rest = '\x7b' :: ('\x7d' :: rest) := by
          simp [dumpsVal, dumpsObj]
        rw [h1]
        simp [parseVal, skipWs, List.dropWhile_cons, isWsChar, headIs]
      | cons kv kvs2 =>
        have h1 : dumpsVal (Json.obj (kv :: kvs2)) ++ rest =
            '\x7b' :: (dumpsStrLit kv.1 ++ ':' :: ' ' ::
              (dumpsVal kv.2 ++ (dumpsObjTail kvs2 ++ rest))) := by
          simp [dumpsVal, dumpsObj]
        rw [h1] at hlen ⊢
        have h2 : skipWs (dumpsStrLit kv.1 ++ ':' :: ' ' ::
            (dumpsVal kv.2 ++ (dumpsObjTail kvs2 ++ rest))) =
            dumpsStrLit kv.1 ++ ':' :: ' ' ::
              (dumpsVal kv.2 ++ (dumpsObjTail kvs2 ++ rest)) := by
          simp [dumpsStrLit, skipWs, List.dropWhile_cons, isWsChar]
        have h3 : headIs '\x7d' (dumpsStrLit kv.1 ++ ':' :: ' ' ::
            (dumpsVal kv.2 ++ (dumpsObjTail kvs2 ++ rest))) = false := by
          simp [dumpsStrLit, headIs]
        have hx := dumpsVal_length_pos kv.2
        have htail := dumpsObjTail_length_pos kvs2
        have htgt := dumpsObjTail_length_gt kvs2
        simp only [List.length_cons, List.length_append, dumpsStrLit] at hlen
        have hlen2 : (dumpsVal kv.2 ++ (dumpsObjTail kvs2 ++ rest)).length < f := by
          simp only [List.length_append]
          omega
        have hkv : parseKV (parseVal f) (dumpsStrLit kv.1 ++ ':' :: ' ' ::
            (dumpsVal kv.2 ++ (dumpsObjTail kvs2 ++ rest))) =
            some ((kv.1, kv.2), dumpsObjTail kvs2 ++ rest) :=
          parseKV_spec (parseVal f) kv.1 kv.2 _
            (ih kv.2 (dumpsObjTail kvs2 ++ rest) hlen2 (numDelim_objTail kvs2 rest))
        have hme : parseMembers (parseVal f) f (dumpsObjTail kvs2 ++ rest) =
            some (kvs2, rest) := by
          refine parseMembers_spec (parseVal f) f kvs2 f rest ?_ ?_ ?_
          · omega
          · intro kv2 _ r hr hlt
            exact ih kv2.2 r hlt hr
          · simp only [List.length_append]
            omega
        simp [parseVal, h2, h3, hkv, skipWs_objTail, hme]
/-- Parse of the full JSON payload: the whole input must be consumed
(`json.loads`; the failure message is the one `parse_message` raises). -/
def jsonLoads (s : List Char) : Except String Json :=
  match parseVal (s.length + 1) s with
  | some (v, []) => .ok v
  | _ => .error "Error al decodificar JSON"

theorem jsonLoads_dumps (v : Json) : jsonLoads (dumpsVal v) = .ok v := by
  unfold jsonLoads
  have h := parseVal_dumps ((dumpsVal v).length + 1) v [] (by simp) rfl
  rw [List.append_nil] at h
  rw [h]

/-- UTF-8 byte count of one character (as `str.encode("utf-8")` emits). -/
def charBytes (c : Char) : Nat :=
  if c.val < 0x80 then 1 else if c.val < 0x800 then 2 else if c.val < 0x10000 then 3 else 4

/-- UTF-8 byte length of a character sequence. -/
def utf8Len : List Char → Nat
  | [] => 0
  | c :: cs => charBytes c + utf8Len cs

theorem one_le_charBytes (c : Char) : 1 ≤ charBytes c := by
  unfold charBytes
  split
  · omega
  split
  · omega
  split
  · omega
  · omega

theorem length_le_utf8Len (m : List Char) : m.length ≤ utf8Len m := by
  induction m with
  | nil => simp [utf8Len]
  | cons c cs ih =>
    have := one_le_charBytes c
    simp only [utf8Len, List.length_cons]
    omega

/-- `BookingService.parse_message` (identical in every service): reject
inputs of fewer than 10 characters with `Mensaje muy corto`, take the
stripped tag from positions 5..10, and `json.loads` the remainder (an
empty remainder decodes to the empty object). -/
def parse_message (m : List Char) : Except String (List Char × Json) :=
  if m.length < 10 then .error "Mensaje muy corto"
  else if (m.drop 10).isEmpty then .ok (stripChars ((m.drop 5).take 5), Json.obj [])
  else
    match jsonLoads (m.drop 10) with
    | .ok v => .ok (stripChars ((m.drop 5).take 5), v)
    | .error e => .error e

/-- Python `service_code.ljust(5)[:5]`. -/
def ljustTake5 (tag : List Char) : List Char :=
  (tag ++ List.replicate (5 - tag.length) ' ').take 5

/-- `BookingService.format_response` (identical in every service):
serialize the payload, pad/truncate the tag to exactly 5 characters, and
prefix the zero-padded decimal length of the tag-plus-payload message. -/
def format_response (service_code : List Char) (data : Json) : List Char :=
  let json_data := dumpsVal data
  let code5 := ljustTake5 service_code
  let message := code5 ++ json_data
  zfill 5 (natToChars message.length) ++ message

theorem format_response_eq (tag : List Char) (p : Json) :
    format_response tag p =
      zfill 5 (natToChars ((ljustTake5 tag ++ dumpsVal p).length)) ++
        (ljustTake5 tag ++ dumpsVal p) := rfl

theorem ljustTake5_length (tag : List Char) : (ljustTake5 tag).length = 5 := by
  simp [ljustTake5]
  omega

theorem dropWhile_ws_replicate (k : Nat) :
    (List.replicate k ' ').dropWhile isWsChar = [] := by
  induction k with
  | zero => rfl
  | succ k ih => simp [List.replicate_succ, List.dropWhile_cons, isWsChar, ih]

theorem stripChars_ljustTake5 (tag : List Char) (h : tag.length ≤ 5) :
    stripChars (ljustTake5 tag) = stripChars tag := by
  have h1 : ljustTake5 tag = tag ++ List.replicate (5 - tag.length) ' ' := by
    unfold ljustTake5
    exact List.take_of_length_le (by simp; omega)
  rw [h1]
  unfold stripChars
  rw [List.dropWhile_append]
  split
  next he =>
    rw [List.isEmpty_iff] at he
    rw [he, dropWhile_ws_replicate]
  next he =>
    rw [List.reverse_append, List.reverse_replicate, List.dropWhile_append]
    rw [if_pos (by rw [dropWhile_ws_replicate]; rfl)]

theorem parse_message_format (tag : List Char) (p : Json) (htag : tag.length ≤ 5)
    (hlen : (dumpsVal p).length ≤ 99994) :
    parse_message (format_response tag p) = .ok (stripChars tag, p) := by
  rw [format_response_eq]
  have hcode : (ljustTake5 tag).length = 5 := ljustTake5_length tag
  have hnum : (natToChars ((ljustTake5 tag ++ dumpsVal p).length)).length ≤ 5 := by
    refine natToChars_length_le 5 (by omega) _ ?_
    simp only [List.length_append, hcode]
    omega
  have hlenf : (zfill 5 (natToChars ((ljustTake5 tag ++ dumpsVal p).length))).length = 5 :=
    zfill_length_of_le 5 _ hnum
  have hfull : (zfill 5 (natToChars ((ljustTake5 tag ++ dumpsVal p).length)) ++
      (ljustTake5 tag ++ dumpsVal p)).length = 10 + (dumpsVal p).length := by
    rw [List.length_append, hlenf, List.length_append, hcode]
    omega
  have hdrop10 : (zfill 5 (natToChars ((ljustTake5 tag ++ dumpsVal p).length)) ++
      (ljustTake5 tag ++ dumpsVal p)).drop 10 = dumpsVal p := by
    rw [show (10 : Nat) = (zfill 5 (natToChars ((ljustTake5 tag ++ dumpsVal p).length))).length
        + 5 from by rw [hlenf]]
    rw [List.drop_append, List.drop_left' hcode]
  have hdrop5 : (zfill 5 (natToChars ((ljustTake5 tag ++ dumpsVal p).length)) ++
      (ljustTake5 tag ++ dumpsVal p)).drop 5 = ljustTake5 tag ++ dumpsVal p :=
    List.drop_left' hlenf
  have hne : dumpsVal p ≠ [] := by
    have := dumpsVal_length_pos p
    intro h
    rw [h] at this
    simp at this
  unfold parse_message
  rw [if_neg (by rw [hfull]; omega)]
  rw [hdrop10, hdrop5, List.take_left' hcode]
  rw [if_neg (by simp [List.isEmpty_iff, hne])]
  rw [jsonLoads_dumps, stripChars_ljustTake5 tag htag]

/-! ### Claim C7 -/

/-- C7 counterexample: decoding the encoding of tag `"book"` returns the
tag with its padding stripped (`message[5:10].strip()`), not the tag
padded to 5 characters, so the stated round trip
`decode(encode(tag, payload)) == (tag_padded_to_5, payload)` fails: the
decoded tag `"book"` differs from the padded `"book "`. -/
theorem claim_C7_counterexample :
    parse_message (format_response "book".toList (Json.obj [])) =
      .ok ("book".toList, Json.obj []) ∧
    "book".toList ≠ ljustTake5 "book".toList := by
  constructor
  · have h : dumpsVal (Json.obj []) = ['\x7b', '\x7d'] := by
      simp [dumpsVal, dumpsObj]
    rw [show format_response "book".toList (Json.obj []) =
        zfill 5 (natToChars ((ljustTake5 "book".toList ++ dumpsVal (Json.obj [])).length)) ++
          (ljustTake5 "book".toList ++ dumpsVal (Json.obj [])) from rfl]
    rw [h]
    rfl
  · decide

/-- C7 amended: for every tag of at most 5 characters and every payload
whose serialization stays within the 5-digit length prefix (at most 99994
characters), `decode(encode(tag, payload))` equals the pair of the tag
with surrounding whitespace stripped (for the padded-to-5 wire tag,
`str.strip` removes exactly the padding, so the result is the stripped
tag, not the padded one) and the payload unchanged; and decode of any
input of fewer than 10 bytes (so also fewer than 10 characters) fails
with the `Mensaje muy corto` (TooShort) error. -/
theorem claim_C7_amended :
    (∀ (tag : List Char) (p : Json), tag.length ≤ 5 → (dumpsVal p).length ≤ 99994 →
      parse_message (format_response tag p) = .ok (stripChars tag, p)) ∧
    (∀ m : List Char, utf8Len m < 10 → parse_message m = .error "Mensaje muy corto") := by
  constructor
  · exact parse_message_format
  · intro m hm
    have := length_le_utf8Len m
    unfold parse_message
    rw [if_pos (by omega)]

/-- C7 witness: the amended round trip at tag `"bk"` and payload
`{"id": 7}`, and the TooShort branch on a 9-character input. -/
theorem claim_C7_witness :
    parse_message (format_response "bk".toList (Json.obj [("id", Json.num 7)])) =
      .ok (stripChars "bk".toList, Json.obj [("id", Json.num 7)]) ∧
    parse_message "123456789".toList = .error "Mensaje muy corto" :=
  ⟨claim_C7_amended.1 "bk".toList (Json.obj [("id", Json.num 7)]) (by decide)
      (by simp [dumpsVal, dumpsObj, dumpsObjTail, dumpsStrLit, escapeStr, escapeChar,
        intToChars, natToChars, natToCharsGo, digitChar]),
    claim_C7_amended.2 "123456789".toList (by decide)⟩

/-! ### Claim C8 -/

/-- C8 counterexample: for the payload `{"m": "é"}` the serialized message
`TAG ++ PAYLOAD` is 15 characters but 16 UTF-8 bytes (`é` is two bytes),
and the LEN field emitted by `format_response` reads 15 = the character
count, not the byte length the claim states (`len` in Python counts
characters of the `str`, and the frame is UTF-8 encoded only at the
socket). -/
theorem claim_C8_counterexample :
    digitsVal ((format_response "book".toList (Json.obj [("m", Json.str "é")])).take 5) = 15 ∧
    utf8Len ((format_response "book".toList (Json.obj [("m", Json.str "é")])).drop 5) = 16 := by
  have h : dumpsVal (Json.obj [("m", Json.str "é")]) =
      ['\x7b', '"', 'm', '"', ':', ' ', '"', 'é', '"', '\x7d'] := by
    simp [dumpsVal, dumpsObj, dumpsObjTail, dumpsStrLit, escapeStr, escapeChar]
  constructor
  · rw [show format_response "book".toList (Json.obj [("m", Json.str "é")]) =
        zfill 5 (natToChars ((ljustTake5 "book".toList ++
          dumpsVal (Json.obj [("m", Json.str "é")])).length)) ++
          (ljustTake5 "book".toList ++ dumpsVal (Json.obj [("m", Json.str "é")])) from rfl]
    rw [h]
    rfl
  · rw [show format_response "book".toList (Json.obj [("m", Json.str "é")]) =
        zfill 5 (natToChars ((ljustTake5 "book".toList ++
          dumpsVal (Json.obj [("m", Json.str "é")])).length)) ++
          (ljustTake5 "book".toList ++ dumpsVal (Json.obj [("m", Json.str "é")])) from rfl]
    rw [h]
    rfl

/-- C8 amended: for every tag and payload the frame is the 5-character
zero-padded decimal of the CHARACTER length of `TAG ++ PAYLOAD` (which is
5 plus the character count of the serialized payload, and equals the byte
length only for ASCII payloads), followed by that message; the length
field is recomputed by `format_response` itself from the emitted message,
whose tag part is always exactly 5 characters. -/
theorem claim_C8_amended (tag : List Char) (p : Json) :
    format_response tag p =
      zfill 5 (natToChars ((ljustTake5 tag ++ dumpsVal p).length)) ++
        (ljustTake5 tag ++ dumpsVal p) ∧
    (ljustTake5 tag).length = 5 ∧
    digitsVal (zfill 5 (natToChars ((ljustTake5 tag ++ dumpsVal p).length))) =
      5 + (dumpsVal p).length := by
  refine ⟨format_response_eq tag p, ljustTake5_length tag, ?_⟩
  rw [digitsVal_zfill, digitsVal_natToChars]
  simp [ljustTake5_length tag]

/-! ### Calendar query (claim C9)

`AvailabilityService.handle_get_calendar` from
`src/services/availability_service.py`.  Dates are modelled as day
numbers and instants as minutes (day `d` spans `[1440 d, 1440 (d+1))`, so
08:00 is minute `1440 d + 480` and 22:00 is `1440 d + 1320`).  The Python
`while` loop steps one hour from 08:00 while before 22:00, which is
exactly 14 iterations, driven here by fuel 14 with the same guard.  The
SQL query orders by `fecha_inicio` (stable insertion sort here).

The crucial detail is modelled faithfully: the code calls
`reservations_result.fetchall()` INSIDE the slot loop.  The first call
consumes the cursor and returns every row; every later call returns an
empty list.  The loop below therefore passes the fetched rows to the
first slot only and `[]` to all later slots. -/

/-- One hourly slot of the calendar response. -/
structure Slot where
  hora : Int
  disponible : Bool
  estado : Option String
  motivo : Option String
deriving DecidableEq

/-- The calendar response (`espacio` is the space name). -/
structure Calendario where
  espacio : String
  horarios : List Slot
deriving DecidableEq

/-- Stable insertion of a row into a list sorted by `fecha_inicio`. -/
def insertByInicio (r : Reserva) : List Reserva → List Reserva
  | [] => [r]
  | x :: xs => if r.inicio < x.inicio then r :: x :: xs else x :: insertByInicio r xs

/-- `ORDER BY fecha_inicio` of the reservation query. -/
def sortByInicio : List Reserva → List Reserva
  | [] => []
  | r :: rs => insertByInicio r (sortByInicio rs)

/-- One iteration body: the first row with
`res_start <= current_time < res_end` occupies the slot. -/
def calendarSlot (rows : List Reserva) (cur : Int) : Slot :=
  match rows.find? (fun r => decide (r.inicio ≤ cur) && decide (cur < r.fin)) with
  | some r => ⟨cur, false, some r.estado, some r.motivo⟩
  | none => ⟨cur, true, none, none⟩

/-- The slot loop; after the first iteration the cursor is exhausted, so
the recursive call receives `[]` in place of the rows. -/
def calendarLoop : List Reserva → Int → Int → Nat → List Slot
  | _, _, _, 0 => []
  | rows, cur, endT, n + 1 =>
    if cur < endT then calendarSlot rows cur :: calendarLoop [] (cur + 60) endT n
    else []

/-- `AvailabilityService.handle_get_calendar`: requires the space field,
looks up the active space for its name, fetches the reservations of the
space lying inside `[08:00, 22:00]` of the date ordered by start, and
builds the 14 hourly slots. -/
def handle_get_calendar (db : DB) (space : String) (fecha : Int) : Except String Calendario :=
  if space == "" then .error "ID del espacio y fecha son requeridos"
  else
    match db.espacios.find? (fun e => e.id == space && e.activo) with
    | none => .error "Espacio no encontrado"
    | some esp =>
      let startOfDay : Int := 1440 * fecha + 480
      let endOfDay : Int := 1440 * fecha + 1320
      let rows := sortByInicio (db.reservas.filter (fun r =>
        r.espacio == space && decide (startOfDay ≤ r.inicio) && decide (r.fin ≤ endOfDay)))
      .ok ⟨esp.nombre, calendarLoop rows startOfDay endOfDay 14⟩

/-- Space `"1"` with an `aprobada` booking 10:00 to 11:00 (minutes 600 to
660) of day 0: the failing input of claim C9. -/
def dbCalendario : DB :=
  ⟨[⟨"2", true⟩], [⟨"1", "Sala A", true⟩],
    [⟨1, some "2", "1", 600, 660, "aprobada", "clase", "normal"⟩], [⟨1, "1", "abierta", ""⟩], 2⟩

/-- Same space with the booking moved to 08:00 to 09:00, covering the
first slot. -/
def dbCalendario2 : DB :=
  ⟨[⟨"2", true⟩, ⟨"3", true⟩], [⟨"1", "Sala A", true⟩],
    [⟨1, some "2", "1", 480, 540, "aprobada", "clase", "normal"⟩], [⟨1, "1", "abierta", ""⟩], 2⟩

/-- C9, evaluation at the failing input: the approved booking covers the
start instant 10:00 of the third slot, yet the calendar reports every slot
after 08:00 as available -- `fetchall()` is called inside the slot loop,
so the reservations cursor is exhausted after the first slot.  The
control database shows that a booking covering the 08:00 slot IS
attached there (only the first slot ever sees the rows), and an unknown
space still fails with `Espacio no encontrado` as the claim says. -/
theorem claim_C9_bug :
    (∃ r ∈ dbCalendario.reservas, r.espacio = "1" ∧ r.estado = "aprobada" ∧
      r.inicio ≤ 600 ∧ 600 < r.fin) ∧
    handle_get_calendar dbCalendario "1" 0 =
      .ok ⟨"Sala A",
        [⟨480, true, none, none⟩, ⟨540, true, none, none⟩, ⟨600, true, none, none⟩,
          ⟨660, true, none, none⟩, ⟨720, true, none, none⟩, ⟨780, true, none, none⟩,
          ⟨840, true, none, none⟩, ⟨900, true, none, none⟩, ⟨960, true, none, none⟩,
          ⟨1020, true, none, none⟩, ⟨1080, true, none, none⟩, ⟨1140, true, none, none⟩,
          ⟨1200, true, none, none⟩, ⟨1260, true, none, none⟩]⟩ ∧
    handle_get_calendar dbCalendario2 "1" 0 =
      .ok ⟨"Sala A",
        [⟨480, false, some "aprobada", some "clase"⟩, ⟨540, true, none, none⟩,
          ⟨600, true, none, none⟩, ⟨660, true, none, none⟩, ⟨720, true, none, none⟩,
          ⟨780, true, none, none⟩, ⟨840, true, none, none⟩, ⟨900, true, none, none⟩,
          ⟨960, true, none, none⟩, ⟨1020, true, none, none⟩, ⟨1080, true, none, none⟩,
          ⟨1140, true, none, none⟩, ⟨1200, true, none, none⟩, ⟨1260, true, none, none⟩]⟩ ∧
    handle_get_calendar dbCalendario "99" 0 = .error "Espacio no encontrado" :=
  ⟨by decide, rfl, rfl, rfl⟩

end ARQ
